import Mathlib

/-!
Verification development for the `event_calplot` calendar-heatmap library.

The Python pipeline (pandas DataFrames) is embedded shallowly:
a DataFrame is a `List Row`, a pandas `Timestamp` is a calendar date plus a
time-of-day component, and each pipeline stage of
`preprocessing.py` / `traces.py` / `layout.py` / `heatmap.py` becomes a pure
Lean function on row lists.
-/

set_option autoImplicit false
set_option maxRecDepth 100000

namespace EventCalplot

/-! ### Calendar arithmetic (semantics of the pandas date functions used) -/

/-- Proleptic Gregorian leap-year test. -/
def isLeap (y : Nat) : Bool :=
  (y % 4 == 0 && y % 100 != 0) || (y % 400 == 0)

/-- Number of days in month `m` (1..12) of year `y`. -/
def daysInMonth (y m : Nat) : Nat :=
  if m = 2 then (if isLeap y then 29 else 28)
  else if m = 4 ∨ m = 6 ∨ m = 9 ∨ m = 11 then 30
  else 31

/-- Number of days in year `y`. -/
def daysInYear (y : Nat) : Nat := if isLeap y then 366 else 365

/-- A calendar date (year, month, day-of-month). -/
structure Date where
  y : Nat
  m : Nat
  d : Nat
deriving DecidableEq, Repr

/-- A date that a pandas `Timestamp` can actually hold: month in 1..12 and
day-of-month within the month's length. -/
def Date.Valid (dt : Date) : Prop :=
  1 ≤ dt.m ∧ dt.m ≤ 12 ∧ 1 ≤ dt.d ∧ dt.d ≤ daysInMonth dt.y dt.m

instance (dt : Date) : Decidable dt.Valid := by
  unfold Date.Valid; infer_instance

/-- Ordinal day of the year (1 for January 1). -/
def Date.doy (dt : Date) : Nat :=
  (((List.range' 1 (dt.m - 1)).map (daysInMonth dt.y)).sum) + dt.d

/-- Rata-die day number: day 1 is 0001-01-01 (a Monday) in the proleptic
Gregorian calendar. -/
def Date.rataDie (dt : Date) : Nat :=
  (365 * (dt.y - 1) + (dt.y - 1) / 4 - (dt.y - 1) / 100) + (dt.y - 1) / 400
    + dt.doy

/-- Weekday with Monday = 0 .. Sunday = 6 (the pandas `.dt.weekday`
convention). -/
def Date.weekday (dt : Date) : Nat := (dt.rataDie + 6) % 7

/-- Helper for the ISO week count: `(y + y/4 - y/100 + y/400) % 7`, which is 4
exactly when December 31 of year `y` falls on a Thursday. -/
def isoDec31Code (y : Nat) : Nat := (y + y / 4 - y / 100 + y / 400) % 7

/-- Number of ISO weeks in year `y` (52 or 53): 53 exactly when the year's
Dec 31 or the previous year's Dec 31 (so this year's Jan 1) is a Thursday. -/
def isoWeekCount (y : Nat) : Nat :=
  if isoDec31Code y = 4 ∨ isoDec31Code (y - 1) = 3 then 53 else 52

/-- ISO-8601 week-of-year number (the value of `strftime("%V")` as an
integer, 1..53). -/
def Date.isoWeek (dt : Date) : Nat :=
  let w := (dt.doy + 10 - (dt.weekday + 1)) / 7
  if w = 0 then isoWeekCount (dt.y - 1)
  else if isoWeekCount dt.y < w then 1
  else w

/-! ### Timestamps and rows -/

/-- A pandas `Timestamp`: a calendar date plus a time-of-day component
(`tod = 0` means midnight, i.e. a normalized timestamp). -/
structure Timestamp where
  date : Date
  tod : Nat
deriving DecidableEq, Repr

/-- A DataFrame row of the pipeline.  The original input carries only the
date and value columns; the `weekday`, `weeknum` and `event` columns are
`none` until the corresponding stage adds them. -/
structure Row where
  date : Timestamp
  value : Int
  weekday : Option Nat := none
  weeknum : Option Nat := none
  event : Option Nat := none
deriving DecidableEq, Repr

/-! ### preprocessing.py -/

/-- `normalize_dates`: set every timestamp's time-of-day to midnight. -/
def normalize_dates (df : List Row) : List Row :=
  df.map fun r => { r with date := ⟨r.date.date, 0⟩ }

/-- All dates of month `m` of year `y` in chronological order. -/
def monthDates (y m : Nat) : List Date :=
  (List.range' 1 (daysInMonth y m)).map fun d => ⟨y, m, d⟩

/-- All dates of year `y` in chronological order. -/
def yearDates (y : Nat) : List Date :=
  (List.range' 1 12).flatMap fun m => monthDates y m

/-- All dates from `y1`-01-01 through `y2`-12-31 in chronological order. -/
def rangeDates (y1 y2 : Nat) : List Date :=
  (List.range' y1 (y2 + 1 - y1)).flatMap yearDates

/-- Exact number of days from `y1`-01-01 through `y2`-12-31, leap days
included. -/
def daysInSpan (y1 y2 : Nat) : Nat :=
  ((List.range' y1 (y2 + 1 - y1)).map daysInYear).sum

/-- `create_full_date_range`: `pd.date_range` from Jan 1 of `start_year` to
Dec 31 of `end_year`, all timestamps at midnight. -/
def create_full_date_range (start_year end_year : Nat) : List Timestamp :=
  (rangeDates start_year end_year).map fun d => ⟨d, 0⟩

/-- Python's `min` over a list of years (meaningful only for nonempty
lists; Python raises on an empty one). -/
def pyMin : List Nat → Nat
  | [] => 0
  | a :: t => t.foldl Nat.min a

/-- Python's `max` over a list of years. -/
def pyMax : List Nat → Nat
  | [] => 0
  | a :: t => t.foldl Nat.max a

/-- pandas `.unique()`: deduplicate keeping first occurrences
(`seen` accumulates the values already emitted). -/
def uniqueNats (seen : List Nat) : List Nat → List Nat
  | [] => []
  | a :: t => if a ∈ seen then uniqueNats seen t
              else a :: uniqueNats (a :: seen) t

/-- `fill_missing_dates`: outer-merge the dense midnight date range
`[min years .. max years]` with `df` on the date column and zero-fill the
value column.  Every range date yields its matching `df` rows, or a single
zero-valued row when none match; `df` rows whose date is not one of the
range's midnight timestamps are the right-only keys of the outer merge
(none arise in the pipeline, where all dates are normalized dates of the
observed years). -/
def fill_missing_dates (df : List Row) (years : List Nat) : List Row :=
  let range := create_full_date_range (pyMin years) (pyMax years)
  (range.flatMap fun t =>
    let hits := df.filter fun r => r.date = t
    if hits.isEmpty then [{ date := t, value := 0 }] else hits)
  ++ df.filter fun r => ¬ (r.date ∈ range)

/-- `add_weekday_info`: add the `weekday` column, the raw ISO `weeknum`
column, then apply the January mask (raw week ≥ 52 → 0) and afterwards the
December mask (week = 1 → 53), each mask read off the current column. -/
def add_weekday_info (df : List Row) : List Row :=
  let r1 := df.map fun r => { r with weekday := some r.date.date.weekday }
  let r2 := r1.map fun r => { r with weeknum := some r.date.date.isoWeek }
  let r3 := r2.map fun r =>
    if r.date.date.m = 1 ∧ 52 ≤ r.weeknum.getD 0
    then { r with weeknum := some 0 } else r
  r3.map fun r =>
    if r.date.date.m = 12 ∧ r.weeknum.getD 0 = 1
    then { r with weeknum := some 53 } else r

/-- `preprocess_data`: normalize, collect the observed years, gap-fill over
the full year span, then add the weekday/weeknum columns. -/
def preprocess_data (df : List Row) : List Row :=
  let result := normalize_dates df
  let years := uniqueNats [] (result.map fun r => r.date.date.y)
  let result := fill_missing_dates result years
  add_weekday_info result

/-- `get_years_in_data`: sorted unique years of the date column
(insertion sort: any correct sort models Python's `sorted`). -/
def get_years_in_data (df : List Row) : List Nat :=
  (uniqueNats [] (df.map fun r => r.date.date.y)).insertionSort (· ≤ ·)

/-- `filter_by_year`: keep the rows whose date lies in `year`. -/
def filter_by_year (df : List Row) (year : Nat) : List Row :=
  df.filter fun r => r.date.date.y = year

/-! ### traces.py -/

/-- The nine line-position columns `calculate_month_line_positions` adds;
`none` models the NaN a column holds at rows outside its mask. -/
structure LineCols where
  first_line_x : Option ℚ := none
  first_line_y1 : Option ℚ := none
  first_line_y2 : Option ℚ := none
  second_line_x1 : Option ℚ := none
  second_line_x2 : Option ℚ := none
  second_line_y : Option ℚ := none
  third_line_x : Option ℚ := none
  third_line_y1 : Option ℚ := none
  third_line_y2 : Option ℚ := none
deriving DecidableEq, Repr

/-- The line-position columns of a single row given its weeknum `wn`,
weekday `wd`, and the two masks it falls under. -/
def lineColsOf (wn wd line_offset : ℚ) (firstDay combined : Bool) :
    LineCols :=
  { first_line_x := if firstDay then some (wn - line_offset) else none
    first_line_y1 := if firstDay then some (wd - line_offset) else none
    first_line_y2 := if firstDay then some (6 + line_offset) else none
    second_line_x1 := if combined then some (wn - line_offset) else none
    second_line_x2 := if combined then some (wn + line_offset) else none
    second_line_y := if combined then some (wd - line_offset) else none
    third_line_x := if combined then some (wn + line_offset) else none
    third_line_y1 := if combined then some (wd - line_offset) else none
    third_line_y2 := if combined then some (-line_offset) else none }

/-- `calculate_month_line_positions`: on first-of-month rows set the
vertical-line columns, and additionally the horizontal and closing-line
columns when that row's `weekday` column is not 0 (Monday).  The `weeknum`
and `weekday` columns are read as numbers (in the pipeline both are always
present at this stage). -/
def calculate_month_line_positions (df : List Row) (line_offset : ℚ := 1/2) :
    List (Row × LineCols) :=
  df.map fun r =>
    (r, lineColsOf (r.weeknum.getD 0 : Nat) (r.weekday.getD 0 : Nat)
          line_offset (r.date.date.d == 1)
          (r.date.date.d == 1 && r.weekday.getD 0 != 0))

/-- `add_event_markers`: set the `event` column to 0 everywhere, then to 1
on the rows whose date value is in `event_dates` (exact timestamp
membership, as pandas `isin`). -/
def add_event_markers (df : List Row) (event_dates : List Timestamp) :
    List Row :=
  df.map fun r =>
    { r with event := some (if r.date ∈ event_dates then 1 else 0) }

/-- A renderer trace: the three month-separator scatter lines, the value
heatmap, or the event-overlay heatmap (each carrying the column data the
source passes to the renderer). -/
inductive Trace where
  | scatterLine (xs ys : List (Option ℚ))
  | heatmapValues (x y : List Nat) (z : List Int) (text : List Date)
  | heatmapEvents (x y : List Nat) (z : List Nat)
deriving DecidableEq, Repr

/-- `create_month_separator_traces`: each scatter line flattens the pairs
of line-position columns row by row. -/
def create_month_separator_traces (df : List (Row × LineCols)) :
    Trace × Trace × Trace :=
  ( .scatterLine
      (df.flatMap fun rc => [rc.2.first_line_x, rc.2.first_line_x])
      (df.flatMap fun rc => [rc.2.first_line_y1, rc.2.first_line_y2])
  , .scatterLine
      (df.flatMap fun rc => [rc.2.second_line_x1, rc.2.second_line_x2])
      (df.flatMap fun rc => [rc.2.second_line_y, rc.2.second_line_y])
  , .scatterLine
      (df.flatMap fun rc => [rc.2.third_line_x, rc.2.third_line_x])
      (df.flatMap fun rc => [rc.2.third_line_y1, rc.2.third_line_y2]) )

/-- `create_value_heatmap_trace`: weeknum/weekday/value/date columns. -/
def create_value_heatmap_trace (df : List (Row × LineCols)) : Trace :=
  .heatmapValues
    (df.map fun rc => rc.1.weeknum.getD 0)
    (df.map fun rc => rc.1.weekday.getD 0)
    (df.map fun rc => rc.1.value)
    (df.map fun rc => rc.1.date.date)

/-- `create_event_heatmap_trace`: weeknum/weekday/event columns. -/
def create_event_heatmap_trace (df : List (Row × LineCols)) : Trace :=
  .heatmapEvents
    (df.map fun rc => rc.1.weeknum.getD 0)
    (df.map fun rc => rc.1.weekday.getD 0)
    (df.map fun rc => rc.1.event.getD 0)

/-! ### layout.py -/

/-- `np.cumsum`: running totals, `cumsum [a, b, c] = [a, a+b, a+b+c]`. -/
def cumsum (l : List Nat) : List Nat := (l.scanl (· + ·) 0).tail

/-- `calculate_month_positions`: `(cumsum(days_in_months) - 15) / 7`
for each month. -/
def calculate_month_positions (days_in_months : List Nat) : List ℚ :=
  (cumsum days_in_months).map fun c : Nat => ((c : ℚ) - 15) / 7

/-! ### heatmap.py -/

/-- The error raised by `create_calendar_heatmap` when the requested
year is missing: the message carries the year and the available years. -/
inductive CalError where
  | yearNotFound (year : Nat) (available : List Nat)
deriving DecidableEq, Repr

/-- The figure handed to the renderer: its ordered traces, the month-label
tick positions, and the title (the target year). -/
structure Figure where
  traces : List Trace
  monthPositions : List ℚ
  title : Nat
deriving DecidableEq, Repr

/-- pandas `.unique()` over the month-period column: first occurrences of
the (year, month) pairs in row order. -/
def uniquePeriods (seen : List (Nat × Nat)) :
    List (Nat × Nat) → List (Nat × Nat)
  | [] => []
  | a :: t => if a ∈ seen then uniquePeriods seen t
              else a :: uniquePeriods (a :: seen) t

/-- `create_calendar_heatmap` (the data flow relevant to validation and
trace assembly; colors and label strings are renderer styling).  Raises
`yearNotFound` when the requested year is absent from the preprocessed
data's years; otherwise assembles the three separator lines, the value
trace and — exactly when an `event_dates` list was passed (even an empty
one) — the event overlay. -/
def create_calendar_heatmap (data : List Row) (year : Nat)
    (event_dates : Option (List Timestamp)) : Except CalError Figure :=
  let processed := preprocess_data data
  let available := get_years_in_data processed
  if year ∈ available then
    let yearData := filter_by_year processed year
    let yearData := match event_dates with
      | some es => add_event_markers yearData es
      | none => yearData
    let days_in_months :=
      (uniquePeriods [] (yearData.map fun r => (r.date.date.y, r.date.date.m))).map
        fun p => daysInMonth p.1 p.2
    let month_positions := calculate_month_positions days_in_months
    let lined := calculate_month_line_positions yearData
    let (line1, line2, line3) := create_month_separator_traces lined
    let value_trace := create_value_heatmap_trace lined
    let traces := [line1, line2, line3, value_trace] ++
      (match event_dates with
        | some _ => [create_event_heatmap_trace lined]
        | none => [])
    .ok { traces := traces, monthPositions := month_positions, title := year }
  else
    .error (.yearNotFound year available)

instance : DecidableEq (Except CalError Figure) := fun
  | .ok a, .ok b =>
      if h : a = b then .isTrue (by rw [h]) else .isFalse (by simp [h])
  | .ok _, .error _ => .isFalse (by simp)
  | .error _, .ok _ => .isFalse (by simp)
  | .error a, .error b =>
      if h : a = b then .isTrue (by rw [h]) else .isFalse (by simp [h])

/-! ### Heap model for the in-place-mutation claim

Each pipeline function receives a reference to a caller-owned DataFrame,
copies it (`df.copy()` / merge / boolean-mask `.copy()`), mutates only the
fresh copy, and hands back a reference to that copy.  The store holds the
DataFrame cells; a stage is a function from store to store plus result
reference. -/

/-- A heap cell: a plain DataFrame or one augmented with line columns. -/
inductive Cell where
  | rows (l : List Row)
  | geom (l : List (Row × LineCols))
deriving DecidableEq, Repr

abbrev Ref := Nat

/-- The heap of DataFrame objects alive during one pipeline run. -/
structure PStore where
  cells : List Cell
deriving DecidableEq, Repr

/-- Read the cell a reference designates. -/
def PStore.read (σ : PStore) (r : Ref) : Cell := σ.cells.getD r (.rows [])

/-- Read a reference known to hold a plain DataFrame. -/
def PStore.readRows (σ : PStore) (r : Ref) : List Row :=
  match σ.read r with
  | .rows l => l
  | .geom _ => []

/-- Allocate a fresh object and return its reference. -/
def PStore.alloc (σ : PStore) (v : Cell) : Ref × PStore :=
  (σ.cells.length, ⟨σ.cells ++ [v]⟩)

/-- A reference the caller legitimately holds (it designates a live
cell). -/
def PStore.ValidRef (σ : PStore) (r : Ref) : Prop := r < σ.cells.length

instance (σ : PStore) (r : Ref) : Decidable (σ.ValidRef r) := by
  unfold PStore.ValidRef; infer_instance

/-- `normalize_dates` on the heap: copy, normalize the copy in place. -/
def normalize_dates_st (σ : PStore) (r : Ref) : Ref × PStore :=
  σ.alloc (.rows (normalize_dates (σ.readRows r)))

/-- `fill_missing_dates` on the heap: the merge builds a new frame. -/
def fill_missing_dates_st (σ : PStore) (r : Ref) (years : List Nat) :
    Ref × PStore :=
  σ.alloc (.rows (fill_missing_dates (σ.readRows r) years))

/-- `add_weekday_info` on the heap: copy, add columns to the copy. -/
def add_weekday_info_st (σ : PStore) (r : Ref) : Ref × PStore :=
  σ.alloc (.rows (add_weekday_info (σ.readRows r)))

/-- `preprocess_data` on the heap: the three stages in sequence, each
reading the previous stage's frame. -/
def preprocess_data_st (σ : PStore) (r : Ref) : Ref × PStore :=
  let (r1, σ1) := normalize_dates_st σ r
  let years := uniqueNats [] ((σ1.readRows r1).map fun x => x.date.date.y)
  let (r2, σ2) := fill_missing_dates_st σ1 r1 years
  add_weekday_info_st σ2 r2

/-- `filter_by_year` on the heap: the mask selection is `.copy()`-ed. -/
def filter_by_year_st (σ : PStore) (r : Ref) (year : Nat) : Ref × PStore :=
  σ.alloc (.rows (filter_by_year (σ.readRows r) year))

/-- `add_event_markers` on the heap: copy, write the event column of the
copy. -/
def add_event_markers_st (σ : PStore) (r : Ref)
    (event_dates : List Timestamp) : Ref × PStore :=
  σ.alloc (.rows (add_event_markers (σ.readRows r) event_dates))

/-- `calculate_month_line_positions` on the heap: copy, add the line
columns to the copy. -/
def calculate_month_line_positions_st (σ : PStore) (r : Ref) :
    Ref × PStore :=
  σ.alloc (.geom (calculate_month_line_positions (σ.readRows r)))

/-- `create_calendar_heatmap` on the heap: run the pipeline stages on
fresh frames derived from the caller's frame `r`, returning the figure
value (the traces are computed from reads, never writes). -/
def create_calendar_heatmap_st (σ : PStore) (r : Ref) (year : Nat)
    (event_dates : Option (List Timestamp)) :
    Except CalError Figure × PStore :=
  let (rp, σ1) := preprocess_data_st σ r
  let available := get_years_in_data (σ1.readRows rp)
  if year ∈ available then
    let (ry, σ2) := filter_by_year_st σ1 rp year
    let (ry2, σ3) := match event_dates with
      | some es => add_event_markers_st σ2 ry es
      | none => (ry, σ2)
    let yearData := σ3.readRows ry2
    let days_in_months :=
      (uniquePeriods [] (yearData.map fun x => (x.date.date.y, x.date.date.m))).map
        fun p => daysInMonth p.1 p.2
    let month_positions := calculate_month_positions days_in_months
    let (rl, σ4) := calculate_month_line_positions_st σ3 ry2
    let lined := match σ4.read rl with
      | .geom l => l
      | .rows _ => []
    let (line1, line2, line3) := create_month_separator_traces lined
    let value_trace := create_value_heatmap_trace lined
    let traces := [line1, line2, line3, value_trace] ++
      (match event_dates with
        | some _ => [create_event_heatmap_trace lined]
        | none => [])
    (.ok { traces := traces, monthPositions := month_positions,
           title := year }, σ4)
  else
    (.error (.yearNotFound year available), σ1)

/-! ### Lemmas: the dense calendar range -/

theorem mem_monthDates {y m : Nat} {dt : Date} :
    dt ∈ monthDates y m ↔
      dt.y = y ∧ dt.m = m ∧ 1 ≤ dt.d ∧ dt.d ≤ daysInMonth y m := by
  cases dt with
  | mk dy dm dd =>
    simp only [monthDates, List.mem_map, List.mem_range']
    constructor
    · rintro ⟨d, ⟨i, hi, rfl⟩, h⟩
      cases h
      refine ⟨rfl, rfl, by omega, by omega⟩
    · rintro ⟨rfl, rfl, h1, h2⟩
      exact ⟨dd, ⟨dd - 1, by omega, by omega⟩, rfl⟩

theorem mem_yearDates {y : Nat} {dt : Date} :
    dt ∈ yearDates y ↔ dt.y = y ∧ dt.Valid := by
  simp only [yearDates, List.mem_flatMap, List.mem_range', mem_monthDates,
    Date.Valid]
  constructor
  · rintro ⟨m, ⟨i, hi, rfl⟩, hy, hm, hd1, hd2⟩
    subst hy
    rw [← hm] at hd2
    exact ⟨rfl, by omega, by omega, hd1, hd2⟩
  · rintro ⟨hy, hm1, hm2, hd1, hd2⟩
    subst hy
    exact ⟨dt.m, ⟨dt.m - 1, by omega, by omega⟩, rfl, rfl, hd1, hd2⟩

theorem mem_rangeDates {y1 y2 : Nat} {dt : Date} :
    dt ∈ rangeDates y1 y2 ↔ y1 ≤ dt.y ∧ dt.y ≤ y2 ∧ dt.Valid := by
  simp only [rangeDates, List.mem_flatMap, List.mem_range', mem_yearDates]
  constructor
  · rintro ⟨y, ⟨i, hi, rfl⟩, hy, hv⟩
    exact ⟨by omega, by omega, hv⟩
  · rintro ⟨h1, h2, hv⟩
    exact ⟨dt.y, ⟨dt.y - y1, by omega, by omega⟩, rfl, hv⟩

theorem nodup_monthDates (y m : Nat) : (monthDates y m).Nodup := by
  refine List.Nodup.map ?_ (List.nodup_range' _ _)
  intro a b h
  cases h
  rfl

theorem nodup_yearDates (y : Nat) : (yearDates y).Nodup := by
  refine List.nodup_flatMap.2 ⟨fun m _ => nodup_monthDates y m, ?_⟩
  refine (List.pairwise_lt_range' _ _).imp ?_
  intro a b hab
  intro dt h1 h2
  rw [mem_monthDates] at h1 h2
  omega

theorem nodup_rangeDates (y1 y2 : Nat) : (rangeDates y1 y2).Nodup := by
  refine List.nodup_flatMap.2 ⟨fun y _ => nodup_yearDates y, ?_⟩
  refine (List.pairwise_lt_range' _ _).imp ?_
  intro a b hab
  intro dt h1 h2
  rw [mem_yearDates] at h1 h2
  omega

theorem length_monthDates (y m : Nat) :
    (monthDates y m).length = daysInMonth y m := by
  simp [monthDates]

theorem length_yearDates (y : Nat) :
    (yearDates y).length = daysInYear y := by
  have : (yearDates y).length
      = ((List.range' 1 12).map (daysInMonth y)).sum := by
    simp [yearDates, List.length_flatMap, length_monthDates,
      Function.comp_def]
  rw [this, show List.range' 1 12 = [1,2,3,4,5,6,7,8,9,10,11,12] from rfl]
  cases hl : isLeap y <;> simp [daysInMonth, hl, daysInYear]

theorem length_rangeDates (y1 y2 : Nat) :
    (rangeDates y1 y2).length = daysInSpan y1 y2 := by
  simp [rangeDates, daysInSpan, List.length_flatMap, length_yearDates,
    Function.comp_def]

theorem rangeDates_ne_nil {y1 y2 : Nat} (h : y1 ≤ y2) :
    rangeDates y1 y2 ≠ [] := by
  have : (⟨y1, 1, 1⟩ : Date) ∈ rangeDates y1 y2 := by
    rw [mem_rangeDates]
    refine ⟨le_refl _, h, ?_⟩
    simp [Date.Valid, daysInMonth]
  intro hnil
  rw [hnil] at this
  exact absurd this (List.not_mem_nil _)

theorem mem_create_full_date_range {y1 y2 : Nat} {t : Timestamp} :
    t ∈ create_full_date_range y1 y2 ↔
      y1 ≤ t.date.y ∧ t.date.y ≤ y2 ∧ t.date.Valid ∧ t.tod = 0 := by
  cases t with
  | mk d tod =>
    simp only [create_full_date_range, List.mem_map, mem_rangeDates]
    constructor
    · rintro ⟨d', ⟨h1, h2, h3⟩, h⟩
      cases h
      exact ⟨h1, h2, h3, rfl⟩
    · rintro ⟨h1, h2, h3, rfl⟩
      exact ⟨d, ⟨h1, h2, h3⟩, rfl⟩

theorem nodup_create_full_date_range (y1 y2 : Nat) :
    (create_full_date_range y1 y2).Nodup := by
  refine List.Nodup.map ?_ (nodup_rangeDates y1 y2)
  intro a b h
  cases h
  rfl

/-! ### Lemmas: small list helpers -/

theorem mem_uniqueNats {x : Nat} : ∀ {seen l : List Nat},
    x ∈ uniqueNats seen l ↔ x ∈ l ∧ x ∉ seen := by
  intro seen l
  induction l generalizing seen with
  | nil => simp [uniqueNats]
  | cons a t ih =>
    by_cases h : a ∈ seen
    · simp only [uniqueNats, if_pos h, ih, List.mem_cons]
      constructor
      · rintro ⟨hx, hs⟩; exact ⟨Or.inr hx, hs⟩
      · rintro ⟨hx | hx, hs⟩
        · exact absurd (hx ▸ h) hs
        · exact ⟨hx, hs⟩
    · simp only [uniqueNats, if_neg h, List.mem_cons, ih]
      constructor
      · rintro (rfl | ⟨hx, hs⟩)
        · exact ⟨Or.inl rfl, h⟩
        · exact ⟨Or.inr hx, fun hc => hs (Or.inr hc)⟩
      · rintro ⟨rfl | hx, hs⟩
        · exact Or.inl rfl
        · by_cases hxa : x = a
          · exact Or.inl hxa
          · exact Or.inr ⟨hx, fun hc => hc.elim hxa hs⟩

theorem nodup_uniqueNats : ∀ (seen l : List Nat),
    (uniqueNats seen l).Nodup := by
  intro seen l
  induction l generalizing seen with
  | nil => simp [uniqueNats]
  | cons a t ih =>
    by_cases h : a ∈ seen
    · simpa [uniqueNats, if_pos h] using ih seen
    · simp only [uniqueNats, if_neg h, List.nodup_cons]
      refine ⟨?_, ih (a :: seen)⟩
      rw [mem_uniqueNats]
      simp

theorem foldl_min_spec (t : List Nat) : ∀ (a : Nat),
    t.foldl Nat.min a ∈ a :: t ∧ ∀ x ∈ a :: t, t.foldl Nat.min a ≤ x := by
  induction t with
  | nil => simp
  | cons b t ih =>
    intro a
    rcases ih (Nat.min a b) with ⟨hmem, hle⟩
    simp only [List.foldl_cons]
    constructor
    · rcases List.mem_cons.mp hmem with hm | hm
      · rw [hm]
        have h0 : Nat.min a b = a ∨ Nat.min a b = b := by
          rcases Nat.le_total a b with hab | hab
          · exact Or.inl (Nat.min_eq_left hab)
          · exact Or.inr (Nat.min_eq_right hab)
        rcases h0 with h | h <;> rw [h] <;> simp
      · simp [hm]
    · intro x hx
      have h1 : t.foldl Nat.min (Nat.min a b) ≤ Nat.min a b :=
        hle _ (List.mem_cons_self _ _)
      rcases List.mem_cons.mp hx with h2 | h2
      · rw [h2]; exact le_trans h1 (Nat.min_le_left a b)
      · rcases List.mem_cons.mp h2 with h3 | h3
        · rw [h3]; exact le_trans h1 (Nat.min_le_right a b)
        · exact hle _ (List.mem_cons_of_mem _ h3)

theorem foldl_max_spec (t : List Nat) : ∀ (a : Nat),
    t.foldl Nat.max a ∈ a :: t ∧ ∀ x ∈ a :: t, x ≤ t.foldl Nat.max a := by
  induction t with
  | nil => simp
  | cons b t ih =>
    intro a
    rcases ih (Nat.max a b) with ⟨hmem, hle⟩
    simp only [List.foldl_cons]
    constructor
    · rcases List.mem_cons.mp hmem with hm | hm
      · rw [hm]
        have h0 : Nat.max a b = a ∨ Nat.max a b = b := by
          rcases Nat.le_total a b with hab | hab
          · exact Or.inr (Nat.max_eq_right hab)
          · exact Or.inl (Nat.max_eq_left hab)
        rcases h0 with h | h <;> rw [h] <;> simp
      · simp [hm]
    · intro x hx
      have h1 : Nat.max a b ≤ t.foldl Nat.max (Nat.max a b) :=
        hle _ (List.mem_cons_self _ _)
      rcases List.mem_cons.mp hx with h2 | h2
      · rw [h2]; exact le_trans (Nat.le_max_left a b) h1
      · rcases List.mem_cons.mp h2 with h3 | h3
        · rw [h3]; exact le_trans (Nat.le_max_right a b) h1
        · exact hle _ (List.mem_cons_of_mem _ h3)

theorem pyMin_spec {l : List Nat} (h : l ≠ []) :
    pyMin l ∈ l ∧ ∀ x ∈ l, pyMin l ≤ x := by
  cases l with
  | nil => exact absurd rfl h
  | cons a t => exact foldl_min_spec t a

theorem pyMax_spec {l : List Nat} (h : l ≠ []) :
    pyMax l ∈ l ∧ ∀ x ∈ l, x ≤ pyMax l := by
  cases l with
  | nil => exact absurd rfl h
  | cons a t => exact foldl_max_spec t a

theorem pyMin_eq_of_same_mem {l₁ l₂ : List Nat} (h1 : l₁ ≠ []) (h2 : l₂ ≠ [])
    (h : ∀ x, x ∈ l₁ ↔ x ∈ l₂) : pyMin l₁ = pyMin l₂ := by
  have s1 := pyMin_spec h1
  have s2 := pyMin_spec h2
  exact le_antisymm (s1.2 _ ((h _).mpr s2.1)) (s2.2 _ ((h _).mp s1.1))

theorem pyMax_eq_of_same_mem {l₁ l₂ : List Nat} (h1 : l₁ ≠ []) (h2 : l₂ ≠ [])
    (h : ∀ x, x ∈ l₁ ↔ x ∈ l₂) : pyMax l₁ = pyMax l₂ := by
  have s1 := pyMax_spec h1
  have s2 := pyMax_spec h2
  exact le_antisymm (s2.2 _ ((h _).mp s1.1)) (s1.2 _ ((h _).mpr s2.1))

/-- A list whose elements each map to a singleton flattens to the map. -/
theorem flatMap_eq_map_of_singleton {α β : Type} {l : List α}
    {g : α → List β} {h : α → β} (hs : ∀ a ∈ l, g a = [h a]) :
    l.flatMap g = l.map h := by
  induction l with
  | nil => rfl
  | cons a t ih =>
    rw [List.flatMap_cons, List.map_cons, hs a (List.mem_cons_self a t),
      ih fun b hb => hs b (List.mem_cons_of_mem a hb)]
    rfl

/-- With pairwise-distinct dates, at most one row matches any date. -/
theorem filter_date_length_le_one {df : List Row} {t : Timestamp}
    (h : (df.map fun r => r.date).Nodup) :
    (df.filter fun r => r.date = t).length ≤ 1 := by
  induction df with
  | nil => simp
  | cons r df ih =>
    simp only [List.map_cons, List.nodup_cons, List.mem_map] at h
    by_cases hr : r.date = t
    · have : (df.filter fun x => x.date = t) = [] := by
        rw [List.filter_eq_nil_iff]
        intro a ha hc
        simp only [decide_eq_true_eq] at hc
        exact h.1 ⟨a, ha, by rw [hc, hr]⟩
      simp [List.filter_cons, hr, this]
    · simp only [List.filter_cons, hr]
      simpa using ih h.2

/-- Filtering a key-grouped flatMap by one of the (pairwise-distinct) keys
recovers that key's group. -/
theorem filter_flatMap_key {α β : Type} [DecidableEq α] {ks : List α}
    {f : α → List β} {key : β → α} (hnd : ks.Nodup)
    (hf : ∀ k ∈ ks, ∀ b ∈ f k, key b = k) :
    ∀ k ∈ ks, ((ks.flatMap f).filter fun b => key b = k) = f k := by
  induction ks with
  | nil => simp
  | cons k0 ks ih =>
    intro k hk
    simp only [List.nodup_cons] at hnd
    rw [List.flatMap_cons, List.filter_append]
    rcases List.mem_cons.mp hk with rfl | hk'
    · have h1 : (f k).filter (fun b => key b = k) = f k := by
        rw [List.filter_eq_self]
        intro b hb
        simp [hf k (List.mem_cons_self _ _) b hb]
      have h2 : ((ks.flatMap f).filter fun b => key b = k) = [] := by
        rw [List.filter_eq_nil_iff]
        rintro b hb hc
        simp only [decide_eq_true_eq] at hc
        rcases List.mem_flatMap.mp hb with ⟨k', hk', hbk'⟩
        rw [hf k' (List.mem_cons_of_mem _ hk') b hbk'] at hc
        exact hnd.1 (hc ▸ hk')
      rw [h1, h2, List.append_nil]
    · have h1 : (f k0).filter (fun b => key b = k) = [] := by
        rw [List.filter_eq_nil_iff]
        intro b hb hc
        simp only [decide_eq_true_eq] at hc
        rw [hf k0 (List.mem_cons_self _ _) b hb] at hc
        exact hnd.1 (hc ▸ hk')
      rw [h1, List.nil_append]
      exact ih hnd.2 (fun k hk => hf k (List.mem_cons_of_mem _ hk)) k hk'

/-! ### Lemmas: the weekday/weeknum stage -/

/-- The corrected week number as the spec's weeknum invariant states it:
the raw ISO week, except that a January date with raw week ≥ 52 maps to 0
and a December date with raw week 1 maps to 53. -/
def weeknumSpec (dt : Date) : Nat :=
  if dt.m = 1 ∧ 52 ≤ dt.isoWeek then 0
  else if dt.m = 12 ∧ dt.isoWeek = 1 then 53
  else dt.isoWeek

theorem add_weekday_info_eq (df : List Row) :
    add_weekday_info df = df.map fun r =>
      { r with weekday := some r.date.date.weekday,
               weeknum := some (weeknumSpec r.date.date) } := by
  unfold add_weekday_info
  simp only [List.map_map]
  congr 1
  funext r
  cases r with
  | mk d v wd wk ev =>
    dsimp only [Function.comp, Option.getD_some, weeknumSpec]
    by_cases c1 : d.date.m = 1 ∧ 52 ≤ d.date.isoWeek
    · rw [if_pos c1]
      rw [if_pos c1]
      dsimp only [Option.getD_some]
      rw [if_neg (by rintro ⟨-, h⟩; omega)]
    · rw [if_neg c1]
      rw [if_neg c1]
      dsimp only [Option.getD_some]
      by_cases c2 : d.date.m = 12 ∧ d.date.isoWeek = 1
      · rw [if_pos c2, if_pos c2]
      · rw [if_neg c2, if_neg c2]

/-! ### Lemmas: the gap-filling stage -/

theorem headD_filter_date (df : List Row) (t : Timestamp) :
    ((df.filter fun r => r.date = t).headD { date := t, value := 0 }).date
      = t := by
  cases hfe : df.filter fun r => r.date = t with
  | nil => rfl
  | cons r rest =>
    have hr : r ∈ df.filter fun x => x.date = t := by
      rw [hfe]; exact List.mem_cons_self _ _
    have := (List.mem_filter.mp hr).2
    simpa using this

/-- Under the pipeline's conditions (all dates are midnight dates inside
the year span, pairwise distinct), `fill_missing_dates` yields one merged
row per range date: the matching row, or the zero-filled fresh row. -/
theorem fill_eq_map {df : List Row} {years : List Nat}
    (hcov : ∀ r ∈ df,
      r.date ∈ create_full_date_range (pyMin years) (pyMax years))
    (hnd : (df.map fun r => r.date).Nodup) :
    fill_missing_dates df years =
      (create_full_date_range (pyMin years) (pyMax years)).map fun t =>
        (df.filter fun r => r.date = t).headD { date := t, value := 0 } := by
  simp only [fill_missing_dates]
  have happ : (df.filter fun r =>
      ¬ (r.date ∈ create_full_date_range (pyMin years) (pyMax years)))
        = [] := by
    rw [List.filter_eq_nil_iff]
    intro r hr hc
    simp only [decide_eq_true_eq] at hc
    exact hc (hcov r hr)
  rw [happ, List.append_nil]
  apply flatMap_eq_map_of_singleton
  intro t ht
  have hle := filter_date_length_le_one (t := t) hnd
  cases hfe : df.filter fun r => r.date = t with
  | nil => simp [hfe]
  | cons r rest =>
    have hrest : rest = [] := by
      rw [hfe] at hle
      simp only [List.length_cons] at hle
      exact List.eq_nil_of_length_eq_zero (by omega)
    subst hrest
    simp [hfe]

/-! ### Lemmas: preprocess_data as a whole -/

/-- Smallest year among the input dates. -/
def minYear (df : List Row) : Nat := pyMin (df.map fun r => r.date.date.y)

/-- Largest year among the input dates. -/
def maxYear (df : List Row) : Nat := pyMax (df.map fun r => r.date.date.y)

theorem normalize_years (df : List Row) :
    ((normalize_dates df).map fun r => r.date.date.y)
      = df.map fun r => r.date.date.y := by
  simp [normalize_dates, List.map_map, Function.comp_def]

theorem uniqueNats_ne_nil {l : List Nat} (h : l ≠ []) :
    uniqueNats [] l ≠ [] := by
  cases l with
  | nil => exact absurd rfl h
  | cons a t =>
    intro hc
    have : a ∈ uniqueNats [] (a :: t) := by
      rw [mem_uniqueNats]
      exact ⟨List.mem_cons_self _ _, List.not_mem_nil a⟩
    rw [hc] at this
    exact absurd this (List.not_mem_nil a)

theorem pyMin_uniqueNats {l : List Nat} (h : l ≠ []) :
    pyMin (uniqueNats [] l) = pyMin l :=
  pyMin_eq_of_same_mem (uniqueNats_ne_nil h) h
    (fun x => by rw [mem_uniqueNats]; simp)

theorem pyMax_uniqueNats {l : List Nat} (h : l ≠ []) :
    pyMax (uniqueNats [] l) = pyMax l :=
  pyMax_eq_of_same_mem (uniqueNats_ne_nil h) h
    (fun x => by rw [mem_uniqueNats]; simp)

/-- The full characterization of `preprocess_data` for valid,
duplicate-free inputs: one output row per calendar date of the observed
year span, carrying the matched (or zero-filled) value and the computed
weekday/weeknum columns. -/
theorem preprocess_eq {df : List Row} (h0 : df ≠ [])
    (hval : ∀ r ∈ df, r.date.date.Valid)
    (hnd : ((normalize_dates df).map fun r => r.date).Nodup) :
    preprocess_data df =
      (create_full_date_range (minYear df) (maxYear df)).map fun t =>
        { (((normalize_dates df).filter fun r => r.date = t).headD
            { date := t, value := 0 }) with
          weekday := some t.date.weekday,
          weeknum := some (weeknumSpec t.date) } := by
  have hyne : (df.map fun r => r.date.date.y) ≠ [] := by
    simpa using h0
  have hmin : pyMin (uniqueNats []
      ((normalize_dates df).map fun r => r.date.date.y)) = minYear df := by
    rw [normalize_years, pyMin_uniqueNats hyne]; rfl
  have hmax : pyMax (uniqueNats []
      ((normalize_dates df).map fun r => r.date.date.y)) = maxYear df := by
    rw [normalize_years, pyMax_uniqueNats hyne]; rfl
  have hcov : ∀ r ∈ normalize_dates df,
      r.date ∈ create_full_date_range (minYear df) (maxYear df) := by
    intro r hr
    rcases List.mem_map.mp hr with ⟨r0, hr0, rfl⟩
    rw [mem_create_full_date_range]
    have hymem : r0.date.date.y ∈ df.map fun x => x.date.date.y :=
      List.mem_map.mpr ⟨r0, hr0, rfl⟩
    refine ⟨(pyMin_spec hyne).2 _ hymem, (pyMax_spec hyne).2 _ hymem,
      hval r0 hr0, rfl⟩
  simp only [preprocess_data]
  rw [fill_eq_map (by rw [hmin, hmax]; exact hcov) hnd, hmin, hmax,
    add_weekday_info_eq, List.map_map]
  apply List.map_congr_left
  intro t ht
  simp only [Function.comp]
  rw [headD_filter_date (normalize_dates df) t]

/-! ### Lemmas: the shape of preprocess_data for arbitrary input -/

/-- The merged rows at one range date: the matching rows, or a single
zero-filled row (the group a key of the outer merge contributes). -/
def hitOrZero (df : List Row) (t : Timestamp) : List Row :=
  let hits := df.filter fun r => r.date = t
  if hits.isEmpty then [{ date := t, value := 0 }] else hits

/-- The per-row effect of `add_weekday_info`. -/
def weekInfoRow (r : Row) : Row :=
  { r with weekday := some r.date.date.weekday,
           weeknum := some (weeknumSpec r.date.date) }

theorem add_weekday_info_eq_map (df : List Row) :
    add_weekday_info df = df.map weekInfoRow :=
  add_weekday_info_eq df

theorem fill_shape (df : List Row) (years : List Nat) :
    fill_missing_dates df years =
      (create_full_date_range (pyMin years) (pyMax years)).flatMap
        (hitOrZero df)
      ++ df.filter fun r =>
          ¬ (r.date ∈ create_full_date_range (pyMin years) (pyMax years)) :=
  rfl

theorem hitOrZero_date {df : List Row} {t : Timestamp} :
    ∀ r ∈ hitOrZero df t, r.date = t := by
  intro r hr
  unfold hitOrZero at hr
  by_cases he : (df.filter fun x => x.date = t).isEmpty
  · rw [if_pos he] at hr
    rcases List.mem_singleton.mp hr with rfl
    rfl
  · rw [if_neg he] at hr
    simpa using (List.mem_filter.mp hr).2

theorem hitOrZero_ne_nil (df : List Row) (t : Timestamp) :
    hitOrZero df t ≠ [] := by
  unfold hitOrZero
  by_cases he : (df.filter fun x => x.date = t).isEmpty
  · rw [if_pos he]; simp
  · rw [if_neg he]
    intro hc
    rw [hc] at he
    exact he rfl

theorem hitOrZero_sub {df : List Row} {t : Timestamp} :
    ∀ r ∈ hitOrZero df t, r ∈ df ∨ r = { date := t, value := 0 } := by
  intro r hr
  unfold hitOrZero at hr
  by_cases he : (df.filter fun x => x.date = t).isEmpty
  · rw [if_pos he] at hr
    exact Or.inr (List.mem_singleton.mp hr)
  · rw [if_neg he] at hr
    exact Or.inl (List.mem_filter.mp hr).1

/-- `preprocess_data` in closed form, for any nonempty input: a group of
weekday-annotated rows for each date of the observed span, followed by the
(normally empty) annotated right-only rows of the outer merge. -/
theorem preprocess_expand {df : List Row} (h0 : df ≠ []) :
    preprocess_data df =
      (create_full_date_range (minYear df) (maxYear df)).flatMap
        (fun t => (hitOrZero (normalize_dates df) t).map weekInfoRow)
      ++ ((normalize_dates df).filter fun r =>
          ¬ (r.date ∈ create_full_date_range (minYear df) (maxYear df))).map
            weekInfoRow := by
  have hyne : (df.map fun r => r.date.date.y) ≠ [] := by simpa using h0
  have hmin : pyMin (uniqueNats []
      ((normalize_dates df).map fun r => r.date.date.y)) = minYear df := by
    rw [normalize_years, pyMin_uniqueNats hyne]; rfl
  have hmax : pyMax (uniqueNats []
      ((normalize_dates df).map fun r => r.date.date.y)) = maxYear df := by
    rw [normalize_years, pyMax_uniqueNats hyne]; rfl
  simp only [preprocess_data]
  rw [fill_shape, hmin, hmax, add_weekday_info_eq_map, List.map_append,
    List.map_flatMap]

theorem weekInfoRow_date (r : Row) : (weekInfoRow r).date = r.date := rfl

theorem weekInfoRow_idem (r : Row) :
    weekInfoRow (weekInfoRow r) = weekInfoRow r := rfl

/-! ### Lemmas: the years present in the preprocessed grid -/

theorem minYear_le_maxYear {df : List Row} (h0 : df ≠ []) :
    minYear df ≤ maxYear df := by
  have hyne : (df.map fun r => r.date.date.y) ≠ [] := by simpa using h0
  exact (pyMin_spec hyne).2 _ (pyMax_spec hyne).1

theorem mem_years_preprocess {df : List Row} (h0 : df ≠ []) {y : Nat} :
    (y ∈ (preprocess_data df).map fun r => r.date.date.y) ↔
      minYear df ≤ y ∧ y ≤ maxYear df := by
  have hyne : (df.map fun r => r.date.date.y) ≠ [] := by simpa using h0
  rw [preprocess_expand h0]
  constructor
  · intro hy
    rcases List.mem_map.mp hy with ⟨r, hr, rfl⟩
    rcases List.mem_append.mp hr with hr | hr
    · rcases List.mem_flatMap.mp hr with ⟨t, ht, hrt⟩
      rcases List.mem_map.mp hrt with ⟨r0, hr0, rfl⟩
      rw [weekInfoRow_date]
      rcases hitOrZero_sub r0 hr0 with hin | hzero
      · rcases List.mem_map.mp hin with ⟨r1, hr1, rfl⟩
        have : r1.date.date.y ∈ df.map fun x => x.date.date.y :=
          List.mem_map.mpr ⟨r1, hr1, rfl⟩
        exact ⟨(pyMin_spec hyne).2 _ this, (pyMax_spec hyne).2 _ this⟩
      · have hd := hitOrZero_date r0 hr0
        have ht' := (mem_create_full_date_range).mp ht
        rw [hzero] at hd ⊢
        have : ({ date := t, value := 0 } : Row).date = t := rfl
        rw [hd]
        exact ⟨ht'.1, ht'.2.1⟩
    · rcases List.mem_map.mp hr with ⟨r0, hr0, rfl⟩
      rw [weekInfoRow_date]
      have hr1 := List.mem_filter.mp hr0
      rcases List.mem_map.mp hr1.1 with ⟨r1, hr2, rfl⟩
      have : r1.date.date.y ∈ df.map fun x => x.date.date.y :=
        List.mem_map.mpr ⟨r1, hr2, rfl⟩
      exact ⟨(pyMin_spec hyne).2 _ this, (pyMax_spec hyne).2 _ this⟩
  · rintro ⟨h1, h2⟩
    have ht : (⟨⟨y, 1, 1⟩, 0⟩ : Timestamp)
        ∈ create_full_date_range (minYear df) (maxYear df) := by
      rw [mem_create_full_date_range]
      exact ⟨h1, h2, by simp [Date.Valid, daysInMonth], rfl⟩
    have hne := hitOrZero_ne_nil (normalize_dates df) ⟨⟨y, 1, 1⟩, 0⟩
    cases hg : hitOrZero (normalize_dates df) ⟨⟨y, 1, 1⟩, 0⟩ with
    | nil => exact absurd hg hne
    | cons r rest =>
      have hrmem : r ∈ hitOrZero (normalize_dates df) ⟨⟨y, 1, 1⟩, 0⟩ := by
        rw [hg]; exact List.mem_cons_self _ _
      have hrd := hitOrZero_date r hrmem
      refine List.mem_map.mpr ⟨weekInfoRow r, ?_, ?_⟩
      · refine List.mem_append_left _ (List.mem_flatMap.mpr
          ⟨⟨⟨y, 1, 1⟩, 0⟩, ht, List.mem_map.mpr ⟨r, hrmem, rfl⟩⟩)
      · rw [weekInfoRow_date, hrd]

theorem minYear_preprocess {df : List Row} (h0 : df ≠ []) :
    minYear (preprocess_data df) = minYear df := by
  have h1 : minYear df ∈ (preprocess_data df).map fun r => r.date.date.y :=
    (mem_years_preprocess h0).mpr ⟨le_refl _, minYear_le_maxYear h0⟩
  have hne : ((preprocess_data df).map fun r => r.date.date.y) ≠ [] := by
    intro hc; rw [hc] at h1; exact absurd h1 (List.not_mem_nil _)
  refine le_antisymm ((pyMin_spec hne).2 _ h1) ?_
  have := (pyMin_spec hne).1
  exact ((mem_years_preprocess h0).mp this).1

theorem maxYear_preprocess {df : List Row} (h0 : df ≠ []) :
    maxYear (preprocess_data df) = maxYear df := by
  have h1 : maxYear df ∈ (preprocess_data df).map fun r => r.date.date.y :=
    (mem_years_preprocess h0).mpr ⟨minYear_le_maxYear h0, le_refl _⟩
  have hne : ((preprocess_data df).map fun r => r.date.date.y) ≠ [] := by
    intro hc; rw [hc] at h1; exact absurd h1 (List.not_mem_nil _)
  refine le_antisymm ?_ ((pyMax_spec hne).2 _ h1)
  have := (pyMax_spec hne).1
  exact ((mem_years_preprocess h0).mp this).2

/-- The contiguous year span the heatmap treats as available. -/
def yearSpan (df : List Row) : List Nat :=
  List.range' (minYear df) (maxYear df + 1 - minYear df)

theorem mem_yearSpan {df : List Row} {y : Nat} :
    y ∈ yearSpan df ↔ minYear df ≤ y ∧ y ≤ maxYear df := by
  rw [yearSpan, List.mem_range']
  constructor
  · rintro ⟨i, hi, rfl⟩
    omega
  · rintro ⟨h1, h2⟩
    exact ⟨y - minYear df, by omega, by omega⟩

/-- The years `get_years_in_data` reports for the preprocessed grid:
exactly the contiguous span from the smallest to the largest input year. -/
theorem get_years_preprocess {df : List Row} (h0 : df ≠ []) :
    get_years_in_data (preprocess_data df) = yearSpan df := by
  unfold get_years_in_data
  apply List.eq_of_perm_of_sorted (r := (· ≤ · : Nat → Nat → Prop))
  · refine (List.perm_insertionSort _ _).trans ?_
    have : yearSpan df
        = List.range' (minYear df) (maxYear df + 1 - minYear df) := rfl
    rw [this,
      List.perm_ext_iff_of_nodup (nodup_uniqueNats _ _)
        (List.nodup_range' _ _)]
    intro y
    rw [mem_uniqueNats]
    simp only [List.not_mem_nil, not_false_iff, and_true]
    rw [mem_years_preprocess h0, ← this, ← mem_yearSpan]
  · exact List.sorted_insertionSort _ _
  · exact ((List.pairwise_lt_range' _ _).imp fun h => le_of_lt h)

/-- The heatmap's validation behaviour: the requested year is checked
against the span years; on failure the raised error carries the requested
year and the available list. -/
theorem create_calendar_heatmap_error_char {df : List Row} (year : Nat)
    (ed : Option (List Timestamp)) (h0 : df ≠ []) :
    (year ∉ yearSpan df →
      create_calendar_heatmap df year ed
        = .error (.yearNotFound year (yearSpan df)))
    ∧ (year ∈ yearSpan df →
      ∃ f, create_calendar_heatmap df year ed = .ok f) := by
  constructor
  · intro hy
    simp only [create_calendar_heatmap]
    rw [get_years_preprocess h0, if_neg hy]
  · intro hy
    simp only [create_calendar_heatmap]
    rw [get_years_preprocess h0, if_pos hy]
    exact ⟨_, rfl⟩

/-! ### Lemmas: idempotence of preprocess_data -/

theorem flatMap_congr {α β : Type} {l : List α} {f g : α → List β}
    (h : ∀ a ∈ l, f a = g a) : l.flatMap f = l.flatMap g := by
  induction l with
  | nil => rfl
  | cons a t ih =>
    rw [List.flatMap_cons, List.flatMap_cons, h a (List.mem_cons_self _ _),
      ih fun b hb => h b (List.mem_cons_of_mem _ hb)]

theorem filter_flatMap_date {ks : List Timestamp} {f : Timestamp → List Row}
    (hnd : ks.Nodup) (hf : ∀ k ∈ ks, ∀ b ∈ f k, b.date = k) :
    ∀ k ∈ ks, ((ks.flatMap f).filter fun r => r.date = k) = f k :=
  filter_flatMap_key hnd hf

theorem normalize_eq_self {l : List Row} (h : ∀ r ∈ l, r.date.tod = 0) :
    normalize_dates l = l := by
  unfold normalize_dates
  have hid : ∀ r ∈ l, ({ r with date := ⟨r.date.date, 0⟩ } : Row) = r := by
    intro r hr
    have h2 := h r hr
    cases r with
    | mk d v wd wk ev =>
      cases d with
      | mk dd tt =>
        have h3 : tt = 0 := h2
        rw [h3]
  rw [List.map_congr_left hid]
  exact List.map_id' l

theorem mem_normalize_tod {l : List Row} :
    ∀ r ∈ normalize_dates l, r.date.tod = 0 := by
  intro r hr
  rcases List.mem_map.mp hr with ⟨r0, _, rfl⟩
  rfl

theorem preprocess_tod {df : List Row} (h0 : df ≠ []) :
    ∀ r ∈ preprocess_data df, r.date.tod = 0 := by
  intro r hr
  rw [preprocess_expand h0] at hr
  rcases List.mem_append.mp hr with hr | hr
  · rcases List.mem_flatMap.mp hr with ⟨t, ht, hrt⟩
    rcases List.mem_map.mp hrt with ⟨r0, hr0, rfl⟩
    rw [weekInfoRow_date, hitOrZero_date r0 hr0]
    exact ((mem_create_full_date_range).mp ht).2.2.2
  · rcases List.mem_map.mp hr with ⟨r0, hr0, rfl⟩
    rw [weekInfoRow_date]
    exact mem_normalize_tod r0 (List.mem_filter.mp hr0).1

theorem preprocess_ne_nil {df : List Row} (h0 : df ≠ []) :
    preprocess_data df ≠ [] := by
  have h1 : minYear df ∈ (preprocess_data df).map fun r => r.date.date.y :=
    (mem_years_preprocess h0).mpr ⟨le_refl _, minYear_le_maxYear h0⟩
  intro hc
  rw [hc] at h1
  exact absurd h1 (List.not_mem_nil _)

theorem preprocess_hits {df : List Row} (h0 : df ≠ []) :
    ∀ t ∈ create_full_date_range (minYear df) (maxYear df),
      ((preprocess_data df).filter fun r => r.date = t)
        = (hitOrZero (normalize_dates df) t).map weekInfoRow := by
  intro t ht
  rw [preprocess_expand h0, List.filter_append]
  have h2 : (((normalize_dates df).filter fun r =>
      ¬ (r.date ∈ create_full_date_range (minYear df) (maxYear df))).map
        weekInfoRow).filter (fun r => r.date = t) = [] := by
    rw [List.filter_eq_nil_iff]
    intro r hr hc
    simp only [decide_eq_true_eq] at hc
    rcases List.mem_map.mp hr with ⟨r0, hr0, rfl⟩
    rw [weekInfoRow_date] at hc
    have := (List.mem_filter.mp hr0).2
    simp only [decide_eq_true_eq] at this
    rw [hc] at this
    exact this ht
  have h1 : (((create_full_date_range (minYear df) (maxYear df)).flatMap
      fun u => (hitOrZero (normalize_dates df) u).map weekInfoRow).filter
        fun r => r.date = t)
      = (hitOrZero (normalize_dates df) t).map weekInfoRow := by
    refine filter_flatMap_date
      (nodup_create_full_date_range (minYear df) (maxYear df)) ?_ t ht
    intro k _ b hb
    rcases List.mem_map.mp hb with ⟨b0, hb0, rfl⟩
    rw [weekInfoRow_date]
    exact hitOrZero_date b0 hb0
  rw [h1, h2, List.append_nil]

theorem fill_preprocess {df : List Row} (h0 : df ≠ []) :
    fill_missing_dates (preprocess_data df)
      (uniqueNats [] ((preprocess_data df).map fun r => r.date.date.y))
      = preprocess_data df := by
  have hPne : ((preprocess_data df).map fun r => r.date.date.y) ≠ [] := by
    simpa using preprocess_ne_nil h0
  have hmin : pyMin (uniqueNats []
      ((preprocess_data df).map fun r => r.date.date.y)) = minYear df := by
    rw [pyMin_uniqueNats hPne]
    exact minYear_preprocess h0
  have hmax : pyMax (uniqueNats []
      ((preprocess_data df).map fun r => r.date.date.y)) = maxYear df := by
    rw [pyMax_uniqueNats hPne]
    exact maxYear_preprocess h0
  rw [fill_shape, hmin, hmax]
  have hflat : (create_full_date_range (minYear df) (maxYear df)).flatMap
      (hitOrZero (preprocess_data df))
      = (create_full_date_range (minYear df) (maxYear df)).flatMap
        (fun t => (hitOrZero (normalize_dates df) t).map weekInfoRow) := by
    apply flatMap_congr
    intro t ht
    unfold hitOrZero
    rw [preprocess_hits h0 t ht]
    have hne : (hitOrZero (normalize_dates df) t).map weekInfoRow ≠ [] := by
      intro hc
      exact hitOrZero_ne_nil _ _ (List.map_eq_nil_iff.mp hc)
    rw [if_neg (by
      intro hc
      exact hne ((List.isEmpty_iff).mp hc))]
    rfl
  have happ : ((preprocess_data df).filter fun r =>
      ¬ (r.date ∈ create_full_date_range (minYear df) (maxYear df)))
      = ((normalize_dates df).filter fun r =>
          ¬ (r.date ∈ create_full_date_range (minYear df) (maxYear df))).map
            weekInfoRow := by
    conv_lhs => rw [preprocess_expand h0]
    rw [List.filter_append]
    have h1 : ((create_full_date_range (minYear df) (maxYear df)).flatMap
        (fun t => (hitOrZero (normalize_dates df) t).map weekInfoRow)).filter
          (fun r => ¬ (r.date ∈
            create_full_date_range (minYear df) (maxYear df))) = [] := by
      rw [List.filter_eq_nil_iff]
      intro r hr hc
      simp only [decide_eq_true_eq] at hc
      rcases List.mem_flatMap.mp hr with ⟨t, ht, hrt⟩
      rcases List.mem_map.mp hrt with ⟨r0, hr0, rfl⟩
      rw [weekInfoRow_date, hitOrZero_date r0 hr0] at hc
      exact hc ht
    have h2 : (((normalize_dates df).filter fun r =>
        ¬ (r.date ∈ create_full_date_range (minYear df) (maxYear df))).map
          weekInfoRow).filter (fun r => ¬ (r.date ∈
            create_full_date_range (minYear df) (maxYear df)))
        = ((normalize_dates df).filter fun r =>
            ¬ (r.date ∈
              create_full_date_range (minYear df) (maxYear df))).map
              weekInfoRow := by
      rw [List.filter_eq_self]
      intro r hr
      rcases List.mem_map.mp hr with ⟨r0, hr0, rfl⟩
      have := (List.mem_filter.mp hr0).2
      simpa [weekInfoRow_date] using this
    rw [h1, h2, List.nil_append]
  rw [hflat, happ, ← preprocess_expand h0]

theorem add_weekday_info_preprocess {df : List Row} (h0 : df ≠ []) :
    add_weekday_info (preprocess_data df) = preprocess_data df := by
  rw [add_weekday_info_eq_map]
  conv_lhs => rw [preprocess_expand h0]
  conv_rhs => rw [preprocess_expand h0]
  rw [List.map_append, List.map_flatMap]
  congr 1
  · apply flatMap_congr
    intro t ht
    rw [List.map_map]
    apply List.map_congr_left
    intro r hr
    exact weekInfoRow_idem r
  · rw [List.map_map]
    apply List.map_congr_left
    intro r hr
    exact weekInfoRow_idem r

theorem preprocess_unfold (l : List Row) :
    preprocess_data l
      = add_weekday_info (fill_missing_dates (normalize_dates l)
          (uniqueNats [] ((normalize_dates l).map fun r => r.date.date.y)))
    := rfl

theorem preprocess_idem {df : List Row} (h0 : df ≠ []) :
    preprocess_data (preprocess_data df) = preprocess_data df := by
  rw [preprocess_unfold (preprocess_data df),
    normalize_eq_self (preprocess_tod h0), fill_preprocess h0]
  exact add_weekday_info_preprocess h0

/-! ### Lemmas: dates, cardinality of the preprocessed grid -/

theorem preprocess_dates {df : List Row} (h0 : df ≠ [])
    (hval : ∀ r ∈ df, r.date.date.Valid)
    (hnd : ((normalize_dates df).map fun r => r.date).Nodup) :
    ((preprocess_data df).map fun r => r.date)
      = create_full_date_range (minYear df) (maxYear df) := by
  rw [preprocess_eq h0 hval hnd, List.map_map]
  have : ∀ t ∈ create_full_date_range (minYear df) (maxYear df),
      ((fun t => ((((normalize_dates df).filter fun r => r.date = t).headD
          { date := t, value := 0 })).date) t) = (fun t => t) t := by
    intro t ht
    exact headD_filter_date (normalize_dates df) t
  calc ((create_full_date_range (minYear df) (maxYear df)).map _)
      = (create_full_date_range (minYear df) (maxYear df)).map
          (fun t => t) := List.map_congr_left this
    _ = _ := List.map_id' _

theorem preprocess_length {df : List Row} (h0 : df ≠ [])
    (hval : ∀ r ∈ df, r.date.date.Valid)
    (hnd : ((normalize_dates df).map fun r => r.date).Nodup) :
    (preprocess_data df).length = daysInSpan (minYear df) (maxYear df) := by
  have h := congrArg List.length (preprocess_dates h0 hval hnd)
  rw [List.length_map] at h
  rw [h, create_full_date_range, List.length_map, length_rangeDates]

/-! ### Lemmas: month positions -/

theorem scanl_add_getD (t : List Nat) : ∀ (acc i : Nat), i < t.length + 1 →
    (t.scanl (· + ·) acc).getD i 0 = acc + (t.take i).sum := by
  induction t with
  | nil =>
    intro acc i hi
    have hz : i = 0 := by simpa using hi
    subst hz
    simp [List.scanl]
  | cons a t ih =>
    intro acc i hi
    rw [List.scanl_cons]
    cases i with
    | zero => simp
    | succ j =>
      have hj : j < t.length + 1 := by
        simp only [List.length_cons] at hi; omega
      have := ih (acc + a) j hj
      simp only [List.singleton_append, List.getD_cons_succ, this,
        List.take_succ_cons, List.sum_cons]
      omega

theorem cumsum_getD {l : List Nat} {i : Nat} (hi : i < l.length) :
    (cumsum l).getD i 0 = (l.take (i + 1)).sum := by
  cases l with
  | nil => simp at hi
  | cons a t =>
    unfold cumsum
    rw [List.scanl_cons]
    simp only [List.singleton_append, List.tail_cons]
    have := scanl_add_getD t (0 + a) i
      (by simp only [List.length_cons] at hi; omega)
    rw [this, List.take_succ_cons, List.sum_cons]
    omega

theorem length_cumsum (l : List Nat) : (cumsum l).length = l.length := by
  unfold cumsum
  rw [List.length_tail, List.length_scanl]
  omega

theorem getD_map_rat (l : List Nat) (f : Nat → ℚ) :
    ∀ i, i < l.length → (l.map f).getD i 0 = f (l.getD i 0) := by
  induction l with
  | nil => intro i hi; simp at hi
  | cons a t ih =>
    intro i hi
    cases i with
    | zero => simp
    | succ j =>
      simp only [List.map_cons, List.getD_cons_succ]
      exact ih j (by simp only [List.length_cons] at hi; omega)

theorem calculate_month_positions_getD (l : List Nat) :
    ∀ i, i < l.length →
      (calculate_month_positions l).getD i 0
        = (((l.take (i + 1)).sum : ℚ) - 15) / 7 := by
  intro i hi
  unfold calculate_month_positions
  rw [getD_map_rat _ _ i (by rw [length_cumsum]; exact hi),
    cumsum_getD hi]

theorem length_calculate_month_positions (l : List Nat) :
    (calculate_month_positions l).length = l.length := by
  unfold calculate_month_positions
  rw [List.length_map, length_cumsum]

/-! ### Spec-side definitions for the event and separator claims -/

/-- The event annotator as the spec words it: event dates are first
normalized to date-only, and a row is flagged when its calendar date is in
that normalized set. -/
def add_event_markers_spec (df : List Row) (event_dates : List Timestamp) :
    List Row :=
  df.map fun r =>
    if r.date.date ∈ event_dates.map (fun e => e.date)
    then { r with event := some 1 }
    else { r with event := some 0 }

/-- Whether a trace is the event-overlay heatmap. -/
def Trace.isEvent : Trace → Bool
  | .heatmapEvents _ _ _ => true
  | _ => false

/-- The separator geometry of one row as the spec words it: a vertical
segment on every first-of-month row, plus a horizontal connector and a
closing vertical segment when that first day is not a Monday, and no
geometry on other rows. -/
def lineColsSpec (r : Row) : LineCols :=
  if r.date.date.d = 1 then
    if r.weekday.getD 0 = 0 then
      { first_line_x := some ((r.weeknum.getD 0 : ℚ) - 1/2)
        first_line_y1 := some ((r.weekday.getD 0 : ℚ) - 1/2)
        first_line_y2 := some (6 + 1/2) }
    else
      { first_line_x := some ((r.weeknum.getD 0 : ℚ) - 1/2)
        first_line_y1 := some ((r.weekday.getD 0 : ℚ) - 1/2)
        first_line_y2 := some (6 + 1/2)
        second_line_x1 := some ((r.weeknum.getD 0 : ℚ) - 1/2)
        second_line_x2 := some ((r.weeknum.getD 0 : ℚ) + 1/2)
        second_line_y := some ((r.weekday.getD 0 : ℚ) - 1/2)
        third_line_x := some ((r.weeknum.getD 0 : ℚ) + 1/2)
        third_line_y1 := some ((r.weekday.getD 0 : ℚ) - 1/2)
        third_line_y2 := some (-(1/2)) }
  else {}

/-- How many of the three segment families a row's geometry carries. -/
def segmentCount (c : LineCols) : Nat :=
  (if c.first_line_x.isSome then 1 else 0)
  + (if c.second_line_y.isSome then 1 else 0)
  + (if c.third_line_x.isSome then 1 else 0)

/-! ### Concrete inputs used by the scenario claims -/

/-- Scenario input: every date of 2024 with values 0..365. -/
def input2024 : List Row :=
  (rangeDates 2024 2024).enum.map fun p =>
    { date := ⟨p.2, 0⟩, value := (p.1 : Int) }

/-- A table with two observations normalizing to the same calendar date. -/
def dfDup : List Row :=
  [{ date := ⟨⟨2024, 1, 1⟩, 0⟩, value := 1 },
   { date := ⟨⟨2024, 1, 1⟩, 300⟩, value := 2 }]

/-- A one-observation table whose only year is 2024. -/
def df24 : List Row := [{ date := ⟨⟨2024, 5, 2⟩, 0⟩, value := 3 }]

/-- A one-row grid slice for 2024-02-14 (a normalized date). -/
def dfFeb : List Row := [{ date := ⟨⟨2024, 2, 14⟩, 0⟩, value := 5 }]

/-- An event date carrying a 10:00 time-of-day component. -/
def evFeb : List Timestamp := [⟨⟨2024, 2, 14⟩, 600⟩]

theorem input2024_dates_norm :
    ((normalize_dates input2024).map fun r => r.date)
      = create_full_date_range 2024 2024 := by decide

theorem input2024_length : (preprocess_data input2024).length = 366 := by
  rw [preprocess_length (by decide) (by decide)
      (by rw [input2024_dates_norm]
          exact nodup_create_full_date_range 2024 2024),
    show minYear input2024 = 2024 by decide,
    show maxYear input2024 = 2024 by decide]
  decide

/-! ### Claim theorems -/

/-- C1 (amended): for every nonempty input whose dates are parseable
calendar dates and whose normalized dates are pairwise distinct, the dense
grid produced by `preprocess_data` consists of exactly one row per
calendar date from January 1 of the minimum observed year through
December 31 of the maximum observed year, in order, with no duplicates
and no gaps, so its row count equals the exact day count of that span
including leap days. -/
theorem c1_dense_grid {df : List Row} (h0 : df ≠ [])
    (hval : ∀ r ∈ df, r.date.date.Valid)
    (hnd : ((normalize_dates df).map fun r => r.date).Nodup) :
    ((preprocess_data df).map fun r => r.date)
        = create_full_date_range (minYear df) (maxYear df)
    ∧ ((preprocess_data df).map fun r => r.date).Nodup
    ∧ (preprocess_data df).length
        = daysInSpan (minYear df) (maxYear df) := by
  refine ⟨preprocess_dates h0 hval hnd, ?_, preprocess_length h0 hval hnd⟩
  rw [preprocess_dates h0 hval hnd]
  exact nodup_create_full_date_range _ _

/-- C1 witness: the dense-grid property at a concrete one-row input. -/
theorem c1_dense_grid_witness :
    ((preprocess_data df24).map fun r => r.date)
        = create_full_date_range (minYear df24) (maxYear df24)
    ∧ ((preprocess_data df24).map fun r => r.date).Nodup
    ∧ (preprocess_data df24).length
        = daysInSpan (minYear df24) (maxYear df24) :=
  c1_dense_grid (by decide) (by decide) (by decide)

/-- C1 counterexample: two observations at 00:00 and 05:00 of the same
day are parseable dates, yet the grid then holds 367 rows although the
2024 span has 366 days, so the claim fails without a distinctness
requirement. -/
theorem c1_dense_grid_counterexample :
    (∀ r ∈ dfDup, r.date.date.Valid)
    ∧ (preprocess_data dfDup).length = 367
    ∧ daysInSpan (minYear dfDup) (maxYear dfDup) = 366 := by
  refine ⟨by decide, by decide, by decide⟩

/-- C2: the weekday/weeknum stage annotates every row with its weekday
and with its raw ISO week-of-year, corrected in exactly two cases: a
January date with raw ISO week ≥ 52 gets weeknum 0, and a December date
with raw ISO week 1 gets weeknum 53. -/
theorem c2_weeknum_correction (df : List Row) :
    add_weekday_info df = df.map fun r =>
      { r with
          weekday := some r.date.date.weekday,
          weeknum := some (if r.date.date.m = 1 ∧ 52 ≤ r.date.date.isoWeek
            then 0
            else if r.date.date.m = 12 ∧ r.date.date.isoWeek = 1 then 53
            else r.date.date.isoWeek) } :=
  add_weekday_info_eq df

/-- C3 (amended): the full-2024 input yields a 366-row grid whose first
row is 2024-01-01 with weekday 0 (Monday) and weeknum 1 — not 0, since
the raw ISO week of 2024-01-01 is 1 and the January correction only fires
at raw week ≥ 52. -/
theorem c3_scenario_2024 :
    (preprocess_data input2024).length = 366
    ∧ ((preprocess_data input2024).head?.map fun r =>
        (r.date.date, r.weekday, r.weeknum))
      = some (⟨2024, 1, 1⟩, some 0, some 1) := by
  exact ⟨input2024_length, by decide⟩

/-- C3 counterexample: the grid row for 2024-01-01 does not carry
weeknum 0; its weeknum is 1. -/
theorem c3_scenario_2024_counterexample :
    ((preprocess_data input2024).head?.map fun r => r.date.date)
      = some ⟨2024, 1, 1⟩
    ∧ ((preprocess_data input2024).head?.map fun r => (r.date.date, r.weeknum))
      ≠ some (⟨2024, 1, 1⟩, some 0) := by
  refine ⟨by decide, by decide⟩

/-- C5: preprocessing is idempotent — run on its own (already normalized,
already gap-filled) output it returns that output unchanged. -/
theorem c5_idempotent {df : List Row} (h0 : df ≠ []) :
    preprocess_data (preprocess_data df) = preprocess_data df :=
  preprocess_idem h0

/-- C5 witness: idempotence at a concrete one-row input. -/
theorem c5_idempotent_witness :
    preprocess_data (preprocess_data df24) = preprocess_data df24 :=
  c5_idempotent (by decide)

/-- C4 (amended): the event annotator compares raw timestamps — it does
not normalize the event dates.  On the pipeline's (midnight-normalized)
grid rows it coincides with the spec's normalize-then-compare behaviour
exactly when the supplied event dates are themselves date-only; in
general a row's flag is 1 exactly when its timestamp is literally in the
event list, 0 otherwise, and event dates matching nothing are silently
ignored. -/
theorem c4_event_markers (df : List Row) (es : List Timestamp)
    (hdf : ∀ r ∈ df, r.date.tod = 0) (hes : ∀ e ∈ es, e.tod = 0) :
    add_event_markers df es = add_event_markers_spec df es
    ∧ ∀ (dfx : List Row) (esx : List Timestamp),
        (add_event_markers dfx esx).map (fun r => r.event)
          = dfx.map fun r => some (if r.date ∈ esx then 1 else 0) := by
  constructor
  · unfold add_event_markers add_event_markers_spec
    apply List.map_congr_left
    intro r hr
    by_cases hmem : r.date ∈ es
    · rw [if_pos hmem,
        if_pos (List.mem_map.mpr ⟨r.date, hmem, rfl⟩)]
    · rw [if_neg hmem, if_neg ?_]
      intro hc
      rcases List.mem_map.mp hc with ⟨e, he, hed⟩
      apply hmem
      have h1 : e = ⟨e.date, 0⟩ := by
        have := hes e he
        cases e with
        | mk d t =>
          have h2 : t = 0 := this
          rw [h2]
      have h2 : r.date = ⟨r.date.date, 0⟩ := by
        have := hdf r hr
        cases hrr : r.date with
        | mk d t =>
          have h3 : t = 0 := by rw [hrr] at this; exact this
          rw [h3]
      rw [h2, ← hed, ← h1]
      exact he
  · intro dfx esx
    unfold add_event_markers
    rw [List.map_map]
    rfl

/-- C4 witness: with a midnight event date the annotator and the spec's
normalize-then-compare agree on a concrete grid slice. -/
theorem c4_event_markers_witness :
    add_event_markers dfFeb [⟨⟨2024, 2, 14⟩, 0⟩]
      = add_event_markers_spec dfFeb [⟨⟨2024, 2, 14⟩, 0⟩] :=
  (c4_event_markers dfFeb [⟨⟨2024, 2, 14⟩, 0⟩] (by decide) (by decide)).1

/-- C4 counterexample: an event timestamp for 2024-02-14 carrying a
10:00 time-of-day does not flag the grid row for 2024-02-14 (the
annotator compares timestamps exactly), while the claimed
normalize-before-compare behaviour would flag it. -/
theorem c4_event_markers_counterexample :
    add_event_markers dfFeb evFeb ≠ add_event_markers_spec dfFeb evFeb
    ∧ (add_event_markers dfFeb evFeb).map (fun r => r.event) = [some 0]
    ∧ (add_event_markers_spec dfFeb evFeb).map (fun r => r.event)
      = [some 1] := by
  refine ⟨by decide, by decide, by decide⟩

/-- C6: with the default half-cell offset, every first-of-month row gets
the vertical segment at x = weeknum − 0.5 spanning y from weekday − 0.5
to 6.5; when additionally the row's weekday is not Monday it gets the
horizontal connector at y = weekday − 0.5 from x = weeknum − 0.5 to
weeknum + 0.5 and the closing vertical at x = weeknum + 0.5 from
y = weekday − 0.5 to −0.5; rows with day-of-month ≠ 1 carry no geometry,
so a month starting on Monday yields exactly 1 segment and one starting
mid-week yields exactly 3. -/
theorem c6_separator_geometry (df : List Row) :
    calculate_month_line_positions df = df.map (fun r => (r, lineColsSpec r))
    ∧ ∀ r : Row, segmentCount (lineColsSpec r)
        = if r.date.date.d = 1
          then (if r.weekday.getD 0 = 0 then 1 else 3)
          else 0 := by
  constructor
  · unfold calculate_month_line_positions
    apply List.map_congr_left
    intro r hr
    by_cases hd : r.date.date.d = 1
    · by_cases hw : r.weekday.getD 0 = 0
      · simp [lineColsOf, lineColsSpec, hd, hw]
      · simp [lineColsOf, lineColsSpec, hd, hw]
    · simp [lineColsOf, lineColsSpec, hd]
  · intro r
    unfold lineColsSpec
    by_cases hd : r.date.date.d = 1
    · by_cases hw : r.weekday.getD 0 = 0
      · rw [if_pos hd, if_pos hw, if_pos hd, if_pos hw]
        rfl
      · rw [if_pos hd, if_neg hw, if_pos hd, if_neg hw]
        rfl
    · rw [if_neg hd, if_neg hd]
      rfl

/-- C7: creating the heatmap fails, with a YearNotFound-style error that
names the requested year and lists the available years, exactly when the
requested year is not among the years the pipeline derives from the
input dates — the contiguous span from the minimum to the maximum
observed year; otherwise a figure is produced. -/
theorem c7_year_validation {df : List Row} (year : Nat)
    (ed : Option (List Timestamp)) (h0 : df ≠ []) :
    (create_calendar_heatmap df year ed
        = .error (.yearNotFound year (yearSpan df)) ↔ year ∉ yearSpan df)
    ∧ ((∃ f, create_calendar_heatmap df year ed = .ok f)
        ↔ year ∈ yearSpan df) := by
  obtain ⟨he, ho⟩ := create_calendar_heatmap_error_char year ed h0
  constructor
  · constructor
    · intro herr
      intro hy
      rcases ho hy with ⟨f, hf⟩
      have := hf.symm.trans herr
      simp at this
    · exact he
  · constructor
    · rintro ⟨f, hf⟩
      by_contra hy
      have := (he hy).symm.trans hf
      simp at this
    · exact ho

/-- C7 witness: requesting 2025 against 2024-only data raises the error
naming 2025 and listing the available years [2024]. -/
theorem c7_year_validation_witness :
    create_calendar_heatmap df24 2025 none
      = .error (.yearNotFound 2025 (yearSpan df24))
    ∧ yearSpan df24 = [2024] :=
  ⟨(c7_year_validation 2025 none (by decide)).1.mpr (by decide), by decide⟩

/-- C8: the month-position calculator returns one position per month,
the i-th being (cumulative day total through month i − 15) / 7, and for
the 12 month lengths of a standard non-leap year the positions are
strictly increasing. -/
theorem c8_month_positions (l : List Nat) :
    (calculate_month_positions l).length = l.length
    ∧ (∀ i, i < l.length →
        (calculate_month_positions l).getD i 0
          = (((l.take (i + 1)).sum : ℚ) - 15) / 7)
    ∧ List.Pairwise (· < ·)
        (calculate_month_positions
          [31, 28, 31, 30, 31, 30, 31, 31, 30, 31, 30, 31]) := by
  refine ⟨length_calculate_month_positions l,
    calculate_month_positions_getD l, ?_⟩
  have hlist : calculate_month_positions
      [31, 28, 31, 30, 31, 30, 31, 31, 30, 31, 30, 31]
      = [16/7, 44/7, 75/7, 105/7, 136/7, 166/7, 197/7, 228/7, 258/7,
         289/7, 319/7, 350/7] := by
    norm_num [calculate_month_positions, cumsum, List.scanl]
  rw [hlist]
  norm_num [List.pairwise_cons]

/-- C8 witness: both parts evaluated at the two-month list [31, 28]. -/
theorem c8_month_positions_witness :
    (calculate_month_positions [31, 28]).length = 2
    ∧ (calculate_month_positions [31, 28]).getD 1 0
      = (((([31, 28].take (1 + 1)).sum : ℕ) : ℚ) - 15) / 7 :=
  ⟨(c8_month_positions [31, 28]).1,
    (c8_month_positions [31, 28]).2.1 1 (by decide)⟩

theorem event_z_zero (base : List Row) :
    ((calculate_month_line_positions (add_event_markers base [])).map
      (fun rc => rc.1.event.getD 0)) = List.replicate base.length 0 := by
  unfold calculate_month_line_positions add_event_markers
  rw [List.map_map, List.map_map]
  refine (List.map_congr_left ?_).trans (List.map_const' base 0)
  intro a ha
  simp

/-- C10: passing an event-date list — even an empty one — appends the
event-overlay trace to the figure; with the empty list its z column is
all zeros; with the argument absent no event trace is added at all. -/
theorem c10_empty_event_list {df : List Row} (year : Nat) (h0 : df ≠ [])
    (hy : year ∈ yearSpan df) :
    (∀ es : List Timestamp, ∃ f, create_calendar_heatmap df year (some es) = .ok f
      ∧ ∃ xs ys zs, f.traces.getLast? = some (.heatmapEvents xs ys zs))
    ∧ (∃ f, create_calendar_heatmap df year (some []) = .ok f
      ∧ ∃ xs ys, f.traces.getLast?
          = some (.heatmapEvents xs ys
              (List.replicate
                (filter_by_year (preprocess_data df) year).length 0)))
    ∧ (∀ f, create_calendar_heatmap df year none = .ok f →
        ∀ tr ∈ f.traces, tr.isEvent = false) := by
  refine ⟨?_, ?_, ?_⟩
  · intro es
    simp only [create_calendar_heatmap, create_month_separator_traces,
      create_value_heatmap_trace, create_event_heatmap_trace]
    rw [get_years_preprocess h0, if_pos hy]
    refine ⟨_, rfl, ?_⟩
    rw [List.getLast?_append]
    simp only [List.getLast?_singleton, Option.or_some]
    exact ⟨_, _, _, rfl⟩
  · simp only [create_calendar_heatmap, create_month_separator_traces,
      create_value_heatmap_trace, create_event_heatmap_trace]
    rw [get_years_preprocess h0, if_pos hy]
    refine ⟨_, rfl, ?_⟩
    rw [List.getLast?_append]
    simp only [List.getLast?_singleton, Option.or_some]
    rw [event_z_zero]
    exact ⟨_, _, rfl⟩
  · simp only [create_calendar_heatmap, create_month_separator_traces,
      create_value_heatmap_trace, create_event_heatmap_trace]
    rw [get_years_preprocess h0, if_pos hy]
    intro f hf tr htr
    have hfe : f = _ := (Except.ok.injEq _ _).mp hf.symm
    subst hfe
    simp only [List.append_nil] at htr
    rcases List.mem_cons.mp htr with rfl | htr
    · rfl
    rcases List.mem_cons.mp htr with rfl | htr
    · rfl
    rcases List.mem_cons.mp htr with rfl | htr
    · rfl
    rcases List.mem_cons.mp htr with rfl | htr
    · rfl
    exact absurd htr (List.not_mem_nil tr)

/-- C10 witness: the empty-event-list overlay at the concrete 2024-only
input. -/
theorem c10_empty_event_list_witness :
    ∃ f, create_calendar_heatmap df24 2024 (some []) = .ok f
      ∧ ∃ xs ys, f.traces.getLast?
          = some (.heatmapEvents xs ys
              (List.replicate
                (filter_by_year (preprocess_data df24) 2024).length 0)) :=
  (c10_empty_event_list 2024 (by decide) (by decide)).2.1

theorem getD_concat_self (l : List Cell) (v : Cell) :
    (l ++ [v]).getD l.length (.rows []) = v := by
  induction l with
  | nil => rfl
  | cons a t ih => simp only [List.cons_append, List.length_cons, List.getD_cons_succ]; exact ih

theorem getD_concat_lt (l : List Cell) (v : Cell) {n : Nat}
    (h : n < l.length) :
    (l ++ [v]).getD n (.rows []) = l.getD n (.rows []) :=
  List.getD_append _ _ _ _ h

theorem getD_concat_eq (l : List Cell) (v : Cell) {n : Nat}
    (h : n = l.length) : (l ++ [v]).getD n (.rows []) = v :=
  h ▸ getD_concat_self l v

theorem preprocess_st_cells (σ : PStore) (r : Ref) :
    preprocess_data_st σ r
      = (((σ.cells ++ [Cell.rows (normalize_dates (σ.readRows r))])
          ++ [Cell.rows (fill_missing_dates (normalize_dates (σ.readRows r))
              (uniqueNats [] ((normalize_dates (σ.readRows r)).map
                fun x => x.date.date.y)))]).length,
        ⟨((σ.cells ++ [Cell.rows (normalize_dates (σ.readRows r))])
          ++ [Cell.rows (fill_missing_dates (normalize_dates (σ.readRows r))
              (uniqueNats [] ((normalize_dates (σ.readRows r)).map
                fun x => x.date.date.y)))])
          ++ [Cell.rows (preprocess_data (σ.readRows r))]⟩) := by
  unfold preprocess_data_st normalize_dates_st fill_missing_dates_st
    add_weekday_info_st PStore.alloc PStore.readRows PStore.read
  rw [preprocess_unfold]
  dsimp only
  simp only [getD_concat_self]

set_option maxHeartbeats 2000000 in
theorem create_calendar_heatmap_st_spec (σ : PStore) (r : Ref)
    (year : Nat) (ed : Option (List Timestamp)) :
    (create_calendar_heatmap_st σ r year ed).1
      = create_calendar_heatmap (σ.readRows r) year ed
    ∧ ∀ q : Ref, q < σ.cells.length →
        (create_calendar_heatmap_st σ r year ed).2.read q = σ.read q := by
  cases ed with
  | none =>
    unfold create_calendar_heatmap_st
    rw [preprocess_st_cells]
    unfold filter_by_year_st calculate_month_line_positions_st
      PStore.alloc PStore.readRows PStore.read create_calendar_heatmap
    dsimp only
    simp only [getD_concat_self]
    split_ifs with hy
    · refine ⟨rfl, ?_⟩
      intro q hq
      dsimp only
      simp only [List.append_assoc]
      rw [List.getD_append _ _ _ _ hq]
    · refine ⟨rfl, ?_⟩
      intro q hq
      dsimp only
      simp only [List.append_assoc]
      rw [List.getD_append _ _ _ _ hq]
  | some es =>
    unfold create_calendar_heatmap_st
    rw [preprocess_st_cells]
    unfold filter_by_year_st add_event_markers_st
      calculate_month_line_positions_st
      PStore.alloc PStore.readRows PStore.read create_calendar_heatmap
    dsimp only
    simp only [getD_concat_self]
    split_ifs with hy
    · refine ⟨rfl, ?_⟩
      intro q hq
      dsimp only
      simp only [List.append_assoc]
      rw [List.getD_append _ _ _ _ hq]
    · refine ⟨rfl, ?_⟩
      intro q hq
      dsimp only
      simp only [List.append_assoc]
      rw [List.getD_append _ _ _ _ hq]

theorem alloc_rows_facts {σ : PStore} {r : Ref} (h : r < σ.cells.length)
    (l : List Row) :
    (σ.alloc (.rows l)).2.read r = σ.read r
    ∧ (σ.alloc (.rows l)).1 ≠ r
    ∧ (σ.alloc (.rows l)).2.readRows (σ.alloc (.rows l)).1 = l := by
  refine ⟨getD_concat_lt _ _ h, (Nat.ne_of_lt h).symm, ?_⟩
  unfold PStore.readRows PStore.read PStore.alloc
  rw [getD_concat_self]

theorem alloc_geom_facts {σ : PStore} {r : Ref} (h : r < σ.cells.length)
    (l : List (Row × LineCols)) :
    (σ.alloc (.geom l)).2.read r = σ.read r
    ∧ (σ.alloc (.geom l)).1 ≠ r
    ∧ (σ.alloc (.geom l)).2.read (σ.alloc (.geom l)).1 = .geom l := by
  refine ⟨getD_concat_lt _ _ h, (Nat.ne_of_lt h).symm, ?_⟩
  unfold PStore.read PStore.alloc
  rw [getD_concat_self]

/-- C9: no pipeline stage mutates the caller's DataFrame: each stage
leaves the cell the caller's reference designates untouched and returns a
fresh reference holding the derived copy, and the full heatmap call
leaves it untouched and returns the figure computed purely from it. -/
theorem c9_no_mutation (σ : PStore) (r : Ref) (years : List Nat)
    (year : Nat) (es : List Timestamp) (ed : Option (List Timestamp))
    (h : σ.ValidRef r) :
    ((normalize_dates_st σ r).2.read r = σ.read r
      ∧ (normalize_dates_st σ r).1 ≠ r
      ∧ (normalize_dates_st σ r).2.readRows (normalize_dates_st σ r).1
          = normalize_dates (σ.readRows r))
    ∧ ((fill_missing_dates_st σ r years).2.read r = σ.read r
      ∧ (fill_missing_dates_st σ r years).1 ≠ r
      ∧ (fill_missing_dates_st σ r years).2.readRows
            (fill_missing_dates_st σ r years).1
          = fill_missing_dates (σ.readRows r) years)
    ∧ ((add_weekday_info_st σ r).2.read r = σ.read r
      ∧ (add_weekday_info_st σ r).1 ≠ r
      ∧ (add_weekday_info_st σ r).2.readRows (add_weekday_info_st σ r).1
          = add_weekday_info (σ.readRows r))
    ∧ ((filter_by_year_st σ r year).2.read r = σ.read r
      ∧ (filter_by_year_st σ r year).1 ≠ r
      ∧ (filter_by_year_st σ r year).2.readRows (filter_by_year_st σ r year).1
          = filter_by_year (σ.readRows r) year)
    ∧ ((add_event_markers_st σ r es).2.read r = σ.read r
      ∧ (add_event_markers_st σ r es).1 ≠ r
      ∧ (add_event_markers_st σ r es).2.readRows (add_event_markers_st σ r es).1
          = add_event_markers (σ.readRows r) es)
    ∧ ((calculate_month_line_positions_st σ r).2.read r = σ.read r
      ∧ (calculate_month_line_positions_st σ r).1 ≠ r
      ∧ (calculate_month_line_positions_st σ r).2.read
            (calculate_month_line_positions_st σ r).1
          = .geom (calculate_month_line_positions (σ.readRows r)))
    ∧ ((create_calendar_heatmap_st σ r year ed).2.read r = σ.read r
      ∧ (create_calendar_heatmap_st σ r year ed).1
          = create_calendar_heatmap (σ.readRows r) year ed) :=
  ⟨alloc_rows_facts h _, alloc_rows_facts h _, alloc_rows_facts h _,
    alloc_rows_facts h _, alloc_rows_facts h _, alloc_geom_facts h _,
    (create_calendar_heatmap_st_spec σ r year ed).2 r h,
    (create_calendar_heatmap_st_spec σ r year ed).1⟩

/-- C9 witness: no-mutation facts at a concrete one-frame heap. -/
theorem c9_no_mutation_witness :
    ((normalize_dates_st ⟨[.rows df24]⟩ 0).2.read 0
        = (⟨[.rows df24]⟩ : PStore).read 0
      ∧ (normalize_dates_st ⟨[.rows df24]⟩ 0).1 ≠ 0
      ∧ (normalize_dates_st ⟨[.rows df24]⟩ 0).2.readRows
            (normalize_dates_st ⟨[.rows df24]⟩ 0).1
          = normalize_dates ((⟨[.rows df24]⟩ : PStore).readRows 0))
    ∧ ((create_calendar_heatmap_st ⟨[.rows df24]⟩ 0 2024 none).2.read 0
        = (⟨[.rows df24]⟩ : PStore).read 0
      ∧ (create_calendar_heatmap_st ⟨[.rows df24]⟩ 0 2024 none).1
          = create_calendar_heatmap
              ((⟨[.rows df24]⟩ : PStore).readRows 0) 2024 none) :=
  ⟨(c9_no_mutation ⟨[.rows df24]⟩ 0 [2024] 2024 [] none (by decide)).1,
    (c9_no_mutation ⟨[.rows df24]⟩ 0 [2024] 2024 []
      none (by decide)).2.2.2.2.2.2⟩

end EventCalplot
